import Mathlib

/-!
Shallow embedding of `moonshot/strategies/base.py` (the `Moonshot` strategy
base class): matrices indexed by (Date, Instrument) or (Instrument, Account)
are modelled as functions `Nat → Nat → Option ℚ`, with `none` playing the
role of pandas NaN.  Pandas semantics modelled here:

* elementwise arithmetic propagates NaN (`none`);
* comparisons involving NaN are `False`;
* `shift()` makes row 0 NaN and moves every other row down by one;
* `diff()` is `m - m.shift()`;
* `fillna`, `replace`, `where` behave pointwise as in pandas;
* division by an exact zero is modelled as `none` (the functions under study
  only divide by zero through the `replace(0, 1)` guard, which is modelled
  faithfully; the IEEE infinity produced by pandas on a zero divisor is out
  of scope of the claims).

Rational numbers stand in for floats: the source's arithmetic is exact in
the sense of the spec ("numerically exact, reproducible results").
-/

/-- A pandas value: `none` is NaN. -/
abbrev PVal := Option ℚ

/-- A pandas DataFrame of floats: rows × columns, `none` entries are NaN. -/
abbrev Mat := Nat → Nat → PVal

/-- A NaN-free DataFrame (e.g. integer quantities after `.astype(int)`). -/
abbrev QMat := Nat → Nat → ℚ

/-- Elementwise binary operation, NaN-propagating. -/
def opt2 (f : ℚ → ℚ → ℚ) : PVal → PVal → PVal
  | some x, some y => some (f x y)
  | _, _ => none

/-- NaN-propagating addition. -/
def addOpt (a b : PVal) : PVal := opt2 (fun x y => x + y) a b

/-- NaN-propagating subtraction. -/
def subOpt (a b : PVal) : PVal := opt2 (fun x y => x - y) a b

/-- NaN-propagating multiplication. -/
def mulOpt (a b : PVal) : PVal := opt2 (fun x y => x * y) a b

/-- NaN-propagating division; an exact zero divisor also yields `none`. -/
def divOpt (a b : PVal) : PVal :=
  match a, b with
  | some x, some y => if y = 0 then none else some (x / y)
  | _, _ => none

/-- NaN-propagating absolute value (`.abs()`). -/
def absOpt (a : PVal) : PVal := a.map (fun x => |x|)

/-- NaN-propagating negation. -/
def negOpt (a : PVal) : PVal := a.map (fun x => -x)

/-- Pandas comparison `a < b`: False when either side is NaN. -/
def ltOpt (a b : PVal) : Bool :=
  match a, b with
  | some x, some y => decide (x < y)
  | _, _ => false

/-- Pandas comparison `a ≤ b`: False when either side is NaN. -/
def leOpt (a b : PVal) : Bool :=
  match a, b with
  | some x, some y => decide (x ≤ y)
  | _, _ => false

/-- Pandas comparison `a > b`: False when either side is NaN. -/
def gtOpt (a b : PVal) : Bool := ltOpt b a

/-- Pandas comparison `a ≥ b`: False when either side is NaN. -/
def geOpt (a b : PVal) : Bool := leOpt b a

/-- Elementwise matrix addition. -/
def addM (m n : Mat) : Mat := fun t i => addOpt (m t i) (n t i)

/-- Elementwise matrix subtraction. -/
def subM (m n : Mat) : Mat := fun t i => subOpt (m t i) (n t i)

/-- Elementwise matrix multiplication. -/
def mulM (m n : Mat) : Mat := fun t i => mulOpt (m t i) (n t i)

/-- Elementwise matrix division. -/
def divM (m n : Mat) : Mat := fun t i => divOpt (m t i) (n t i)

/-- Elementwise `.abs()`. -/
def absM (m : Mat) : Mat := fun t i => absOpt (m t i)

/-- `DataFrame.fillna(v)`: replace NaN entries by `v`. -/
def fillnaM (v : ℚ) (m : Mat) : Mat := fun t i => some ((m t i).getD v)

/-- `DataFrame.replace(0, 1)`: replace exact-zero entries by one (NaN kept). -/
def replaceZeroOne (m : Mat) : Mat :=
  fun t i => (m t i).map (fun x => if x = 0 then 1 else x)

/-- `DataFrame.shift()`: row 0 becomes NaN, row t takes row t-1. -/
def shiftM (m : Mat) : Mat := fun t i => if t = 0 then none else m (t - 1) i

/-- `DataFrame.diff()`: first difference along the Date axis. -/
def diffM (m : Mat) : Mat := subM m (shiftM m)

/-- `DataFrame.pct_change()`: relative change from the prior row. -/
def pctChange (m : Mat) : Mat := divM (subM m (shiftM m)) (shiftM m)

/-- `a.where(cond, b)`: keep `a` where `cond` holds, else take `b`. -/
def whereM (cond : Nat → Nat → Bool) (a b : Mat) : Mat :=
  fun t i => if cond t i then a t i else b t i

/-- The all-zero DataFrame (`pd.DataFrame(0, ...)`). -/
def zeroM : Mat := fun _ _ => some 0

/-- The all-NaN DataFrame (`pd.DataFrame(None, ...)`). -/
def noneM : Mat := fun _ _ => none

/-- View a NaN-free matrix as a pandas DataFrame. -/
def toMat (q : QMat) : Mat := fun i a => some (q i a)

/-!
### The price Panel

The multiindex `(Field, Date) × ConId` DataFrame built by
`_get_historical_prices`: time-varying fields from the history db plus
broadcast reference fields (`Currency`, `SecType`, ... ) from the master
service.  `fields` is the set of available field labels (the `Field` level
of the index); `get` reads a numeric field's matrix and `gets` reads a
string-valued reference field (Date × ConId, broadcast along Date).
-/

/-- The Panel: `nrows` dates, `ncols` instruments, numeric fields via `get`,
string reference fields via `gets`, available field labels in `fields`. -/
structure Panel where
  nrows : Nat
  ncols : Nat
  fields : List String
  get : String → Mat
  gets : String → Nat → Nat → String

/-- Errors raised (`ValueError`) by the embedded functions.  The
commission-coverage error carries the list of missing
(sectype, exchange, currency) combinations that the source interpolates
into its message, so that "naming the missing combinations" is checkable. -/
inductive MoonError where
  | valueError (msg : String)
  | missingCommissionGroups (groups : List (String × String × String))

/-- The entry of a fallible matrix-valued computation: `some` of the cell on
success, `none` on an exception. -/
def entryOf (e : Except MoonError Mat) (t i : Nat) : Option PVal :=
  match e with
  | .ok m => some (m t i)
  | .error _ => none

/-!
### `_get_trades`, `_get_contract_values`
-/

/-- `Moonshot._get_trades`: `positions.diff()`. -/
def _get_trades (positions : Mat) : Mat := diffM positions

/-- The candidate price fields searched by `_get_contract_values`. -/
def candidatePriceFields : List String :=
  ["Close", "Open", "Bid", "Ask", "High", "Low"]

/-- `Moonshot._get_contract_values`: using the first available candidate
price field, `closes / price_magnifiers.fillna(1) * multipliers.fillna(1)`;
raises a ValueError when no candidate price field is in the Panel. -/
def _get_contract_values (p : Panel) : Except MoonError Mat :=
  match candidatePriceFields.find? (fun c => p.fields.contains c) with
  | none =>
      .error (.valueError "cannot calculate contract values without a price field")
  | some field =>
      .ok (mulM (divM (p.get field) (fillnaM 1 (p.get "PriceMagnifier")))
            (fillnaM 1 (p.get "Multiplier")))

/-!
### `_constrain_weights` (the Weight Constraint Engine)

The max/min allowed-quantity hooks (`get_max_allowed_quantities`,
`get_min_allowed_quantities`) return `None` by default; their outputs are
passed in as `Option Mat` values.
-/

/-- The target quantities computed inside `_constrain_weights`:
`weights.abs() * prices.loc["Nlv"] / contract_values.shift()`. -/
def target_quantities_of (p : Panel) (weights cv : Mat) : Mat :=
  divM (mulM (absM weights) (p.get "Nlv")) (shiftM cv)

/-- The rescale-down condition of `_constrain_weights`:
`((target_quantities > max_allowed) & (trades.abs() > 0)).fillna(False)`. -/
def reduceCond (tq maxq trades : Mat) : Nat → Nat → Bool :=
  fun t i => gtOpt (tq t i) (maxq t i) && gtOpt (absOpt (trades t i)) (some 0)

/-- The rescale-up condition of `_constrain_weights`:
`((target_quantities < min_allowed) & (trades.abs() > 0)).fillna(False)`. -/
def increaseCond (tq minq trades : Mat) : Nat → Nat → Bool :=
  fun t i => ltOpt (tq t i) (minq t i) && gtOpt (absOpt (trades t i)) (some 0)

/-- The two conditional rescales of `_constrain_weights`:
`weights.where(reduce_weights == False, weights * max/tq.replace(0, 1))`
followed by
`weights.where(increase_weights == False, weights * min/tq.replace(0, 1))`
(the second applied to the already-reduced weights, as in the source). -/
def rescaled_weights (weights tq maxq minq trades : Mat) : Mat :=
  let w1 := whereM (fun t i => !(reduceCond tq maxq trades t i)) weights
    (divM (mulM weights maxq) (replaceZeroOne tq))
  whereM (fun t i => !(increaseCond tq minq trades t i)) w1
    (divM (mulM w1 minq) (replaceZeroOne tq))

/-- `Moonshot._constrain_weights`: no-op when both allowed-quantity hooks
return None; otherwise requires the `Nlv` field, computes target
quantities against the prior period's contract value, and rescales the
weight of every cell that is entering a trade and whose target quantity
violates a bound, dividing by `target_quantities.replace(0, 1)`. -/
def _constrain_weights (maxAllowed minAllowed : Option Mat) (weights : Mat)
    (p : Panel) : Except MoonError Mat :=
  if maxAllowed.isNone && minAllowed.isNone then
    .ok weights
  else if !(p.fields.contains "Nlv") then
    .error (.valueError "must provide NLVs to constrain weights")
  else do
    let cv ← _get_contract_values p
    let tq := target_quantities_of p weights cv
    let maxq := maxAllowed.getD tq
    let minq := minAllowed.getD tq
    let trades := _get_trades weights
    return rescaled_weights weights tq maxq minq trades

/-- `_constrain_weights` applied twice with the same bounds and Panel. -/
def constrain_weights_twice (maxAllowed minAllowed : Option Mat) (weights : Mat)
    (p : Panel) : Except MoonError Mat :=
  (_constrain_weights maxAllowed minAllowed weights p).bind
    (fun w1 => _constrain_weights maxAllowed minAllowed w1 p)

/-!
### `_get_commissions`, `_get_slippage`, `_get_returns`
-/

/-- A (sectype, exchange, currency) combination. -/
abbrev SecGroup := String × String × String

/-- A commission model: `get_commissions(contract_values, trades=trades,
nlvs=nlvs)` produces a commission matrix. -/
abbrev CommissionModel := Mat → Mat → Option Mat → Mat

/-- The `COMMISSION_CLASS` configuration: `None`, a single class, or a dict
keyed by (sectype, exchange, currency) tuples. -/
inductive CommissionConfig where
  | noCommission : CommissionConfig
  | single : CommissionModel → CommissionConfig
  | byGroup : List (SecGroup × CommissionModel) → CommissionConfig

/-- Python truthiness of `COMMISSION_CLASS`: `None` and the empty dict are
falsy (`if not self.COMMISSION_CLASS`). -/
def CommissionConfig.isFalsy : CommissionConfig → Bool
  | .noCommission => true
  | .byGroup [] => true
  | _ => false

/-- The (sectype, exchange, currency) combinations present among the
instruments at the most recent date:
`(sec_types+"|"+exchanges+"|"+currencies).iloc[-1].unique()`, split back
into tuples (the source round-trips through pipe-joined strings; field
values are assumed not to contain the pipe character). -/
def requiredSecGroups (p : Panel) : List SecGroup :=
  ((List.range p.ncols).map (fun i =>
    (p.gets "SecType" (p.nrows - 1) i,
     p.gets "PrimaryExchange" (p.nrows - 1) i,
     p.gets "Currency" (p.nrows - 1) i))).dedup

/-- The per-cell membership mask of one (sectype, exchange, currency)
combination: `(sec_types == sec_type) & (exchanges == exchange) &
(currencies == currency)`. -/
def inSecGroup (p : Panel) (g : SecGroup) : Nat → Nat → Bool :=
  fun t i =>
    (p.gets "SecType" t i == g.1) && (p.gets "PrimaryExchange" t i == g.2.1)
      && (p.gets "Currency" t i == g.2.2)

/-- The `nlvs` argument to commission models: `prices.loc["Nlv"]` when the
field is present, else `None`. -/
def nlvsOf (p : Panel) : Option Mat :=
  if p.fields.contains "Nlv" then some (p.get "Nlv") else none

/-- `Moonshot._get_commissions`: zero matrix when no commission class is
configured; a single class is invoked over the whole trade matrix; a dict
of classes is checked for coverage of every (sectype, exchange, currency)
combination present at the most recent date — missing combinations raise a
ValueError naming them — and the per-group commission matrices are merged
cell-by-cell by group membership. -/
def _get_commissions (cfg : CommissionConfig) (positions : Mat) (p : Panel) :
    Except MoonError Mat :=
  if cfg.isFalsy then .ok zeroM
  else do
    let trades := _get_trades positions
    let cv ← _get_contract_values p
    let nlvs := nlvsOf p
    match cfg with
    | .noCommission => .ok zeroM
    | .single cls => .ok (cls cv trades nlvs)
    | .byGroup classes =>
        let defined := classes.map Prod.fst
        let required := requiredSecGroups p
        let missing := required.filter (fun g => !(defined.contains g))
        if missing.isEmpty then
          .ok (required.foldl (fun acc g =>
            let cls := (classes.lookup g).getD (fun _ _ _ => zeroM)
            whereM (inSecGroup p g) (cls cv trades nlvs) acc) noneM)
        else
          .error (.missingCommissionGroups missing)

/-- A slippage model: `get_slippage(trades, positions, prices)` produces a
slippage matrix. -/
abbrev SlippageModel := Mat → Mat → Panel → Mat

/-- `Moonshot._get_slippage`: starts from the zero matrix, adds the output
of every configured slippage class, and — when `SLIPPAGE_BPS` is nonzero —
replaces the sum with `FixedSlippage(SLIPPAGE_BPS/10000.0)`.  The
`FixedSlippage` class lives outside this file's source
(`moonshot/slippage`), so it is passed in abstractly as `fixedSlippage`. -/
def _get_slippage (classes : List SlippageModel) (bps : ℚ)
    (fixedSlippage : ℚ → SlippageModel) (positions : Mat) (p : Panel) : Mat :=
  let trades := _get_trades positions
  let slippage := classes.foldl
    (fun acc cls => addM acc (cls trades positions p)) zeroM
  if bps ≠ 0 then fixedSlippage (bps / 10000) trades positions p else slippage

/-- Default `Moonshot.simulate_gross_returns`:
`prices.loc["Close"].pct_change() * positions.shift()`. -/
def simulate_gross_returns (positions : Mat) (p : Panel) : Mat :=
  mulM (pctChange (p.get "Close")) (shiftM positions)

/-- `Moonshot._get_returns`: gross returns minus commissions minus
slippage. -/
def _get_returns (cfg : CommissionConfig) (classes : List SlippageModel)
    (bps : ℚ) (fixedSlippage : ℚ → SlippageModel) (positions : Mat)
    (p : Panel) : Except MoonError Mat := do
  let gross_returns := simulate_gross_returns positions p
  let commissions ← _get_commissions cfg positions p
  let slippage := _get_slippage classes bps fixedSlippage positions p
  return subM (subM gross_returns commissions) slippage

/-!
### `simulate_positions` (default implementation)
-/

/-- Default `Moonshot.simulate_positions`: the weight matrix lagged by one
period (`weights.shift()`). -/
def simulate_positions (weights : Mat) : Mat := shiftM weights

/-!
### The live-trading path (`trade`)

The external collaborators (history db, account balances, exchange rates,
blotter positions) are modelled as inputs; the embedded functions cover the
reconciliation, quantity-bound and order-stub stages of `Moonshot.trade`.
-/

/-- Quote-currency resolution in `trade`: for FX instruments (`SecType ==
"CASH"`) the traded Symbol, not the settlement currency, is the quote unit
(`currencies.where(sec_types != "CASH", symbols)`; the `where` is only
executed when a CASH instrument exists, which agrees with this pointwise
definition in both cases). -/
def resolveQuoteCurrency (secType currency symbol : String) : String :=
  if secType = "CASH" then symbol else currency

/-- The per-(instrument, account) exchange-rate matrix of `trade`: a left
merge against the external rate table (absent pairs give NaN), then
`Rate = 1` forced wherever the account's base currency equals the
instrument's quote currency. -/
def resolveExchangeRates (baseCurrency quoteCurrency : Nat → String)
    (rateTable : String → String → PVal) : Mat :=
  fun i a =>
    if baseCurrency a = quoteCurrency i then some 1
    else rateTable (baseCurrency a) (quoteCurrency i)

/-- numpy/pandas `.round()`: round half to even. -/
def roundHalfEven (q : ℚ) : ℤ :=
  if q - ⌊q⌋ = 1 / 2 then (if Even ⌊q⌋ then ⌊q⌋ else ⌊q⌋ + 1) else round q

/-- `Moonshot._get_target_quantities`:
`(weights * nlvs * exchange_rates / contract_values).round().fillna(0).astype(int)`. -/
def _get_target_quantities (weights nlvs exchange_rates contract_values : Mat) :
    Nat → Nat → ℤ :=
  fun i a =>
    match divOpt (mulOpt (mulOpt (weights i a) (nlvs i a)) (exchange_rates i a))
        (contract_values i a) with
    | none => 0
    | some q => roundHalfEven q

/-- An externally reported blotter position: (ConId, Account, Quantity). -/
abbrev HeldPosition := Nat × Nat × ℚ

/-- The held quantity per (ConId, Account) after
`positions.reindex(target_quantities.index).fillna(0)`: the reported
quantity when present, else zero. -/
def heldQuantity (ps : List HeldPosition) (i a : Nat) : ℚ :=
  match ps.find? (fun x => x.1 == i && x.2.1 == a) with
  | some x => x.2.2
  | none => 0

/-- The reconciliation step of `trade`: when the blotter returns no
positions the net quantities are the target quantities; otherwise net =
target − held, with missing held positions defaulting to zero. -/
def net_quantities_of (target : QMat) (ps : List HeldPosition) : QMat :=
  if ps.isEmpty then target
  else fun i a => target i a - heldQuantity ps i a

/-- `(net_quantities == 0).all().all()` over the I × A cells. -/
def allZero (I A : Nat) (q : QMat) : Bool :=
  decide (∀ i < I, ∀ a < A, q i a = 0)

/-- Broadcast the signal-date row of an allowed-quantity hook across
accounts (`allocations.apply(lambda x: quantities).T`). -/
def broadcastAcrossAccounts (v : Nat → PVal) : Mat := fun i _ => v i

/-- The max-quantity clip of `trade`:
`net.where(net.abs() <= maxq, maxq.where(net > 0, -maxq))`. -/
def clip_to_max (net maxq : Mat) : Mat :=
  whereM (fun i a => leOpt (absM net i a) (maxq i a)) net
    (whereM (fun i a => gtOpt (net i a) (some 0)) maxq
      (fun i a => negOpt (maxq i a)))

/-- The min-quantity clip of `trade`:
`net.where(net.abs() >= minq, minq.where(net > 0, -minq))`. -/
def clip_to_min (net minq : Mat) : Mat :=
  whereM (fun i a => geOpt (absM net i a) (minq i a)) net
    (whereM (fun i a => gtOpt (net i a) (some 0)) minq
      (fun i a => negOpt (minq i a)))

/-- The quantity-bound section of `trade`: apply the max clip when the max
hook returns a row, then the min clip when the min hook returns a row. -/
def constrain_net_quantities (net : Mat)
    (maxRow minRow : Option (Nat → PVal)) : Mat :=
  let net1 := match maxRow with
    | none => net
    | some v => clip_to_max net (broadcastAcrossAccounts v)
  match minRow with
  | none => net1
  | some v => clip_to_min net1 (broadcastAcrossAccounts v)

/-- An order stub row: ConId, Account, Action, OrderRef, TotalQuantity. -/
structure OrderStub where
  conId : Nat
  account : Nat
  action : String
  orderRef : String
  totalQuantity : PVal
deriving DecidableEq

/-- `Moonshot._create_order_stubs`: stack the quantities ConId-major, drop
zero rows, derive BUY/SELL from the sign and take the absolute quantity. -/
def _create_order_stubs (code : String) (I A : Nat) (q : Mat) :
    List OrderStub :=
  (List.range I).flatMap (fun i => (List.range A).filterMap (fun a =>
    if q i a = some 0 then none
    else some
      { conId := i, account := a,
        action := if gtOpt (q i a) (some 0) then "BUY" else "SELL",
        orderRef := code, totalQuantity := absOpt (q i a) }))

/-- The tail of `Moonshot.trade` from the target quantities on:
reconciliation against held positions, the all-zero early return (the
method returns `None`, producing no orders), the quantity bounds and the
order stubs. -/
def trade_after_targets (code : String) (I A : Nat) (target : QMat)
    (ps : List HeldPosition) (maxRow minRow : Option (Nat → PVal)) :
    Option (List OrderStub) :=
  let net := net_quantities_of target ps
  if allZero I A net then none
  else
    some (_create_order_stubs code I A
      (constrain_net_quantities (toMat net) maxRow minRow))

/-!
### `backtest` allocation handling
-/

/-- `allocation = allocation or 1.0` in `backtest`: Python truthiness, so
both `None` and `0` fall back to the default `1.0`. -/
def effectiveAllocation (allocation : Option ℚ) : ℚ :=
  match allocation with
  | none => 1
  | some x => if x = 0 then 1 else x

/-- The weight-scaling step of `backtest`: `weights = weights * allocation`
after the falsy-default substitution. -/
def backtest_scaled_weights (weights : Mat) (allocation : Option ℚ) : Mat :=
  fun t i => mulOpt (weights t i) (some (effectiveAllocation allocation))

/-- The weights-to-positions slice of `backtest`: scale by the allocation,
constrain, then simulate positions. -/
def backtest_positions (maxAllowed minAllowed : Option Mat) (weights : Mat)
    (p : Panel) (allocation : Option ℚ) : Except MoonError Mat := do
  let w ← _constrain_weights maxAllowed minAllowed
    (backtest_scaled_weights weights allocation) p
  return simulate_positions w

/-!
### Concrete inputs for witnesses and counterexamples
-/

/-- A 3-date, 1-instrument Panel: constant Close 1, constant Nlv 100. -/
def panelC : Panel where
  nrows := 3
  ncols := 1
  fields := ["Close", "Nlv"]
  get := fun f =>
    if f = "Close" then fun _ _ => some 1
    else if f = "Nlv" then fun _ _ => some 100
    else noneM
  gets := fun _ _ _ => ""

/-- A 2-date, 1-instrument Panel with a zero net liquidation value. -/
def panelZ : Panel where
  nrows := 2
  ncols := 1
  fields := ["Close", "Nlv"]
  get := fun f =>
    if f = "Close" then fun _ _ => some 1
    else if f = "Nlv" then fun _ _ => some 0
    else noneM
  gets := fun _ _ _ => ""

/-- A 2-date, 1-instrument Panel with one STK/NYSE/USD instrument. -/
def panelS : Panel where
  nrows := 2
  ncols := 1
  fields := ["Close"]
  get := fun f => if f = "Close" then fun _ _ => some 1 else noneM
  gets := fun f _ _ =>
    if f = "SecType" then "STK"
    else if f = "PrimaryExchange" then "NYSE"
    else if f = "Currency" then "USD"
    else ""

/-- The contract values of `panelC` (all one). -/
def cvC : Mat :=
  mulM (divM (panelC.get "Close") (fillnaM 1 (panelC.get "PriceMagnifier")))
    (fillnaM 1 (panelC.get "Multiplier"))

/-- The contract values of `panelZ` (all one). -/
def cvZ : Mat :=
  mulM (divM (panelZ.get "Close") (fillnaM 1 (panelZ.get "PriceMagnifier")))
    (fillnaM 1 (panelZ.get "Multiplier"))

/-- The contract values of `panelS` (all one). -/
def cvS : Mat :=
  mulM (divM (panelS.get "Close") (fillnaM 1 (panelS.get "PriceMagnifier")))
    (fillnaM 1 (panelS.get "Multiplier"))

/-- Weights 0, 1, 1 on dates 0, 1, 2 of a single instrument. -/
def w011 : Mat := fun t _ => if t = 0 then some 0 else some 1

/-- Weights 0, 0.7 on dates 0, 1 of a single instrument. -/
def w07 : Mat := fun t _ => if t = 0 then some 0 else some (7 / 10)

/-- A constant max-allowed-quantity matrix of 50. -/
def max50 : Mat := fun _ _ => some 50

/-- A constant min-allowed-quantity matrix of 5. -/
def min5 : Mat := fun _ _ => some 5

/-- A commission model that charges nothing (for witnesses). -/
def freeCommissionModel : CommissionModel := fun _ _ _ => zeroM

/-- A slippage model charging one unit per cell (for witnesses). -/
def unitSlippageModel : SlippageModel := fun _ _ _ => fun _ _ => some 1

/-- A stand-in for `FixedSlippage`: rate times the absolute trade. -/
def fixedSlippageStandIn : ℚ → SlippageModel :=
  fun rate trades _ _ => fun t i => mulOpt (some rate) (absOpt (trades t i))

/-- A commission configuration covering the only group of `panelS`. -/
def classesCov : List (SecGroup × CommissionModel) :=
  [(("STK", "NYSE", "USD"), freeCommissionModel)]

/-- A commission configuration missing the only group of `panelS`. -/
def classesMiss : List (SecGroup × CommissionModel) :=
  [(("FUT", "GLOBEX", "USD"), freeCommissionModel)]

/-!
## Theorems
-/

/-- C1: under the default position simulation, `Position[t] = Weight[t-1]`
for every date `t ≥ 1`, the first period's position is missing (NaN), and
the position at date `t` depends only on weights at dates strictly before
`t` (no lookahead). -/
theorem simulate_positions_lags_weights (weights : Mat) (t i : Nat)
    (ht : 1 ≤ t) :
    simulate_positions weights t i = weights (t - 1) i ∧
    simulate_positions weights 0 i = none ∧
    (∀ weights2 : Mat, (∀ s, s < t → ∀ j, weights s j = weights2 s j) →
      simulate_positions weights t i = simulate_positions weights2 t i) := by
  refine ⟨?_, rfl, ?_⟩
  · simp [simulate_positions, shiftM, Nat.ne_of_gt ht]
  · intro w2 hagree
    have htne : t ≠ 0 := Nat.ne_of_gt ht
    simp only [simulate_positions, shiftM, if_neg htne]
    exact hagree (t - 1) (Nat.sub_lt (Nat.lt_of_lt_of_le Nat.zero_lt_one ht) Nat.zero_lt_one) i

/-- Witness for C1 at a concrete weight matrix and date. -/
theorem simulate_positions_lags_weights_witness :
    1 ≤ 2 ∧
    (simulate_positions (fun t _ => some (t : ℚ) : Mat) 2 0 = some 1 ∧
     simulate_positions (fun t _ => some (t : ℚ) : Mat) 0 0 = none ∧
     (∀ weights2 : Mat,
        (∀ s, s < 2 → ∀ j, (fun t _ => some (t : ℚ) : Mat) s j = weights2 s j) →
        simulate_positions (fun t _ => some (t : ℚ) : Mat) 2 0 =
          simulate_positions weights2 2 0)) := by
  have h := simulate_positions_lags_weights (fun t _ => some (t : ℚ) : Mat) 2 0 (by decide)
  exact ⟨by decide, by simpa using h⟩

/-- Unpacking a true pandas strict comparison: both sides are non-NaN. -/
theorem ltOpt_eq_true_iff {a b : PVal} :
    ltOpt a b = true ↔ ∃ x y, a = some x ∧ b = some y ∧ x < y := by
  cases a <;> cases b <;> simp [ltOpt]

/-- Unpacking a true pandas `>` comparison: both sides are non-NaN. -/
theorem gtOpt_eq_true_iff {a b : PVal} :
    gtOpt a b = true ↔ ∃ x y, a = some x ∧ b = some y ∧ y < x := by
  cases a <;> cases b <;> simp [gtOpt, ltOpt]

/-- C2 (amended): in `trade`, for a cell with net quantity `q`: under a max
bound `bmax ≥ 0` the quantity is kept when `|q| ≤ bmax` and otherwise
clipped to `bmax` with the sign of `q` (so a zero net quantity always stays
zero, `|q| > bmax ≥ 0` forcing `q ≠ 0`); under a min bound `bmin > 0` the
quantity is kept when `|q| ≥ bmin` and otherwise replaced by `bmin` when
`q > 0` and by `-bmin` when `q ≤ 0` — in particular a zero net quantity is
replaced by `-bmin`, not kept at zero. -/
theorem trade_quantity_clipping
    (net : Mat) (vmax vmin : Nat → PVal) (i a : Nat) (q bmax bmin : ℚ)
    (hnet : net i a = some q)
    (hmax : vmax i = some bmax) (hbmax : 0 ≤ bmax)
    (hmin : vmin i = some bmin) (hbmin : 0 < bmin) :
    constrain_net_quantities net (some vmax) none i a =
      (if |q| ≤ bmax then some q else some (if 0 < q then bmax else -bmax)) ∧
    (q = 0 → constrain_net_quantities net (some vmax) none i a = some 0) ∧
    constrain_net_quantities net none (some vmin) i a =
      (if bmin ≤ |q| then some q else some (if 0 < q then bmin else -bmin)) ∧
    (q = 0 → constrain_net_quantities net none (some vmin) i a = some (-bmin)) := by
  have hA : constrain_net_quantities net (some vmax) none i a =
      (if |q| ≤ bmax then some q else some (if 0 < q then bmax else -bmax)) := by
    simp only [constrain_net_quantities, clip_to_max, whereM, broadcastAcrossAccounts,
      absM, absOpt, negOpt, leOpt, gtOpt, ltOpt, hnet, hmax, Option.map_some]
    by_cases h1 : |q| ≤ bmax
    · simp [h1, hnet]
    · by_cases h2 : 0 < q <;> simp [h1, h2]
  have hB : constrain_net_quantities net none (some vmin) i a =
      (if bmin ≤ |q| then some q else some (if 0 < q then bmin else -bmin)) := by
    simp only [constrain_net_quantities, clip_to_min, whereM, broadcastAcrossAccounts,
      absM, absOpt, negOpt, geOpt, leOpt, gtOpt, ltOpt, hnet, hmin, Option.map_some]
    by_cases h1 : bmin ≤ |q|
    · simp [h1, hnet]
    · by_cases h2 : 0 < q <;> simp [h1, h2]
  refine ⟨hA, ?_, hB, ?_⟩
  · intro hq; rw [hA, hq]; simp [hbmax]
  · intro hq; rw [hB, hq]; simp [abs_zero, not_le.mpr hbmin, lt_irrefl]

/-- C2 counterexample: with a min allowed quantity of 5, a cell whose net
quantity is zero does not stay zero — it is replaced by -5. -/
theorem trade_quantity_clipping_counterexample :
    toMat (fun _ _ => (0 : ℚ)) 0 0 = some 0 ∧
    constrain_net_quantities (toMat (fun _ _ => (0 : ℚ))) none
      (some (fun _ => some 5)) 0 0 = some (-5) := by
  constructor <;> decide

/-- Witness for C2 at net quantity 3 with max bound 2 and min bound 5. -/
theorem trade_quantity_clipping_witness :
    (toMat (fun _ _ => (3 : ℚ)) 0 0 = some 3 ∧ (0 : ℚ) ≤ 2 ∧ (0 : ℚ) < 5) ∧
    constrain_net_quantities (toMat (fun _ _ => (3 : ℚ))) (some (fun _ => some 2))
      none 0 0 = some 2 ∧
    constrain_net_quantities (toMat (fun _ _ => (3 : ℚ))) none
      (some (fun _ => some 5)) 0 0 = some 5 := by
  have h := trade_quantity_clipping (toMat (fun _ _ => (3 : ℚ)))
    (fun _ => some 2) (fun _ => some 5) 0 0 3 2 5 rfl rfl (by norm_num) rfl
    (by norm_num)
  refine ⟨⟨rfl, by norm_num, by norm_num⟩, ?_, ?_⟩
  · rw [h.1]; norm_num
  · rw [h.2.2.1]; norm_num

/-- Helper: in the non-trivial branch (some bound configured, `Nlv` present,
contract values computable), `_constrain_weights` returns the conditional
rescale of the weights. -/
theorem constrain_weights_eq_rescaled (p : Panel) (w : Mat)
    (maxA minA : Option Mat) (cv : Mat)
    (hsome : (maxA.isNone && minA.isNone) = false)
    (hnlv : p.fields.contains "Nlv" = true)
    (hcv : _get_contract_values p = .ok cv) :
    _constrain_weights maxA minA w p =
      .ok (rescaled_weights w (target_quantities_of p w cv)
        (maxA.getD (target_quantities_of p w cv))
        (minA.getD (target_quantities_of p w cv)) (_get_trades w)) := by
  rw [_constrain_weights, if_neg (by simp [hsome]), if_neg (by rw [hnlv]; decide)]
  rw [hcv]
  rfl

/-- Helper: a cell at which neither rescale condition fires keeps its
weight. -/
theorem rescaled_weights_entry_of_quiet (weights tq maxq minq trades : Mat)
    (t i : Nat)
    (h1 : reduceCond tq maxq trades t i = false)
    (h2 : increaseCond tq minq trades t i = false) :
    rescaled_weights weights tq maxq minq trades t i = weights t i := by
  simp [rescaled_weights, whereM, h1, h2]

/-- Helper: a cell at which only the reduce condition fires is rescaled by
`max/tq.replace(0, 1)`. -/
theorem rescaled_weights_entry_reduce (weights tq maxq minq trades : Mat)
    (t i : Nat)
    (h1 : reduceCond tq maxq trades t i = true)
    (h2 : increaseCond tq minq trades t i = false) :
    rescaled_weights weights tq maxq minq trades t i =
      divOpt (mulOpt (weights t i) (maxq t i)) (replaceZeroOne tq t i) := by
  simp [rescaled_weights, whereM, h1, h2, divM, mulM]

/-- Helper: a cell at which only the increase condition fires is rescaled by
`min/tq.replace(0, 1)`. -/
theorem rescaled_weights_entry_increase (weights tq maxq minq trades : Mat)
    (t i : Nat)
    (h1 : reduceCond tq maxq trades t i = false)
    (h2 : increaseCond tq minq trades t i = true) :
    rescaled_weights weights tq maxq minq trades t i =
      divOpt (mulOpt (weights t i) (minq t i)) (replaceZeroOne tq t i) := by
  simp [rescaled_weights, whereM, h1, h2, divM, mulM]

/-- Helper: the `replace(0, 1)` image of any rational is nonzero. -/
theorem replaceZeroOne_image_ne_zero (x : ℚ) :
    (if x = 0 then (1 : ℚ) else x) ≠ 0 := by
  by_cases hx : x = 0 <;> simp [hx]

/-- Helper: a cell whose weight is zero is still zero after the conditional
rescales (the rescale multiplies the original, zero, weight). -/
theorem rescaled_weights_zero_entry (weights tq maxq minq trades : Mat)
    (t i : Nat) (hw : weights t i = some 0) :
    rescaled_weights weights tq maxq minq trades t i = some 0 := by
  have hw1 : (if (!reduceCond tq maxq trades t i) = true then weights t i
      else divOpt (mulOpt (weights t i) (maxq t i)) (replaceZeroOne tq t i)) =
        some 0 := by
    by_cases hc : reduceCond tq maxq trades t i = true
    · have hc2 : gtOpt (tq t i) (maxq t i) = true ∧
          gtOpt (absOpt (trades t i)) (some 0) = true := by
        simpa [reduceCond, Bool.and_eq_true] using hc
      obtain ⟨x, y, htq, hmq, -⟩ := gtOpt_eq_true_iff.mp hc2.1
      simp [hc, hw, hmq, htq, replaceZeroOne, mulOpt, opt2, divOpt,
        replaceZeroOne_image_ne_zero x, zero_div]
    · simp [Bool.eq_false_iff.mpr hc, hw]
  simp only [rescaled_weights, whereM, divM, mulM]
  by_cases hc2 : increaseCond tq minq trades t i = true
  · have hc3 : ltOpt (tq t i) (minq t i) = true ∧
        gtOpt (absOpt (trades t i)) (some 0) = true := by
      simpa [increaseCond, Bool.and_eq_true] using hc2
    obtain ⟨x, y, htq, hmq, -⟩ := ltOpt_eq_true_iff.mp hc3.1
    rw [if_neg (by rw [hc2]; decide), hw1]
    simp [mulOpt, opt2, hmq, htq, replaceZeroOne, divOpt,
      replaceZeroOne_image_ne_zero x, zero_div]
  · rw [if_pos (by rw [Bool.eq_false_iff.mpr hc2]; decide)]
    exact hw1

/-- C3 (amended): the weight constraint engine is the identity on weights
when both allowed-quantity hooks return no constraint; and whenever no cell
triggers a rescale (every cell either satisfies its bounds or is not
entering a trade), one application is the identity, so a second application
with the same bounds and Panel changes nothing further.  Unconditional
idempotence fails: see the counterexample, where rescaling one date turns
the following date into a trading cell. -/
theorem constrain_weights_noop_cases
    (p : Panel) (w : Mat) (maxA minA : Option Mat) (cv : Mat)
    (hnlv : p.fields.contains "Nlv" = true)
    (hcv : _get_contract_values p = .ok cv)
    (hquiet : ∀ t i,
      reduceCond (target_quantities_of p w cv)
        (maxA.getD (target_quantities_of p w cv)) (_get_trades w) t i = false ∧
      increaseCond (target_quantities_of p w cv)
        (minA.getD (target_quantities_of p w cv)) (_get_trades w) t i = false) :
    (∀ w2 : Mat, _constrain_weights none none w2 p = .ok w2) ∧
    _constrain_weights maxA minA w p = .ok w ∧
    constrain_weights_twice maxA minA w p = .ok w := by
  have hid : ∀ w2 : Mat, _constrain_weights none none w2 p = .ok w2 :=
    fun w2 => rfl
  have honce : _constrain_weights maxA minA w p = .ok w := by
    by_cases hnone : (maxA.isNone && minA.isNone) = true
    · have h12 : maxA.isNone = true ∧ minA.isNone = true := by
        simpa [Bool.and_eq_true] using hnone
      rw [Option.isNone_iff_eq_none.mp h12.1, Option.isNone_iff_eq_none.mp h12.2]
      exact hid w
    · rw [constrain_weights_eq_rescaled p w maxA minA cv
        (Bool.eq_false_iff.mpr hnone) hnlv hcv]
      refine congrArg Except.ok (funext fun t => funext fun i => ?_)
      exact rescaled_weights_entry_of_quiet _ _ _ _ _ t i (hquiet t i).1
        (hquiet t i).2
  refine ⟨hid, honce, ?_⟩
  rw [constrain_weights_twice, honce]
  exact honce

/-- Helper: the cell formula of the target quantities. -/
theorem target_quantities_entry (p : Panel) (w cv : Mat) (t i : Nat) :
    target_quantities_of p w cv t i =
      divOpt (mulOpt (absOpt (w t i)) (p.get "Nlv" t i)) (shiftM cv t i) := rfl

/-- Helper: the cell formula of the trade matrix. -/
theorem trades_entry (w : Mat) (t i : Nat) :
    _get_trades w t i = subOpt (w t i) (shiftM w t i) := rfl

/-- C3 counterexample: single instrument, Close = 1, NLV = 100, max allowed
quantity 50, weights 0, 1, 1.  One application rescales only date 1 (date 2
is not entering a trade), leaving weight 1 at date 2; the second
application sees a new trade at date 2 (0.5 to 1) and rescales it too, so
applying the engine twice with the same bounds and Panel differs from
applying it once. -/
theorem constrain_weights_idempotence_counterexample :
    entryOf (_constrain_weights (some max50) none w011 panelC) 2 0 =
      some (some 1) ∧
    entryOf (constrain_weights_twice (some max50) none w011 panelC) 2 0 =
      some (some (1 / 2)) := by
  have hgn : panelC.get "Nlv" = (fun _ _ => some 100 : Mat) := rfl
  have hgc : panelC.get "Close" = (fun _ _ => some 1 : Mat) := rfl
  have hgm : panelC.get "PriceMagnifier" = noneM := rfl
  have hgu : panelC.get "Multiplier" = noneM := rfl
  have hcvE : ∀ t i, cvC t i = some 1 := by
    intro t i
    norm_num [cvC, hgc, hgm, hgu, mulM, divM, mulOpt, divOpt, opt2, fillnaM, noneM]
  have hcv : _get_contract_values panelC = .ok cvC := rfl
  have h1 := constrain_weights_eq_rescaled panelC w011 (some max50) none cvC rfl rfl hcv
  simp only [Option.getD_some, Option.getD_none] at h1
  have htq2 : target_quantities_of panelC w011 cvC 2 0 = some 100 := by
    rw [target_quantities_entry]
    norm_num [w011, hgn, hcvE, shiftM, mulOpt, divOpt, opt2, absOpt]
  have htq1 : target_quantities_of panelC w011 cvC 1 0 = some 100 := by
    rw [target_quantities_entry]
    norm_num [w011, hgn, hcvE, shiftM, mulOpt, divOpt, opt2, absOpt]
  have htr2 : _get_trades w011 2 0 = some 0 := by
    rw [trades_entry]
    norm_num [w011, shiftM, subOpt, opt2]
  have htr1 : _get_trades w011 1 0 = some 1 := by
    rw [trades_entry]
    norm_num [w011, shiftM, subOpt, opt2]
  have hrc2 : reduceCond (target_quantities_of panelC w011 cvC) max50
      (_get_trades w011) 2 0 = false := by
    norm_num [reduceCond, htq2, htr2, max50, gtOpt, ltOpt, absOpt]
  have hic2 : increaseCond (target_quantities_of panelC w011 cvC)
      (target_quantities_of panelC w011 cvC) (_get_trades w011) 2 0 = false := by
    norm_num [increaseCond, htq2, ltOpt]
  have hrc1 : reduceCond (target_quantities_of panelC w011 cvC) max50
      (_get_trades w011) 1 0 = true := by
    norm_num [reduceCond, htq1, htr1, max50, gtOpt, ltOpt, absOpt]
  have hic1 : increaseCond (target_quantities_of panelC w011 cvC)
      (target_quantities_of panelC w011 cvC) (_get_trades w011) 1 0 = false := by
    norm_num [increaseCond, htq1, ltOpt]
  have hw1_2 : rescaled_weights w011 (target_quantities_of panelC w011 cvC)
      max50 (target_quantities_of panelC w011 cvC) (_get_trades w011) 2 0 =
        some 1 := by
    rw [rescaled_weights_entry_of_quiet _ _ _ _ _ 2 0 hrc2 hic2]; rfl
  have hw1_1 : rescaled_weights w011 (target_quantities_of panelC w011 cvC)
      max50 (target_quantities_of panelC w011 cvC) (_get_trades w011) 1 0 =
        some (1 / 2) := by
    rw [rescaled_weights_entry_reduce _ _ _ _ _ 1 0 hrc1 hic1]
    norm_num [w011, max50, mulOpt, divOpt, opt2, replaceZeroOne, htq1]
  constructor
  · rw [h1]
    simp only [entryOf]
    rw [hw1_2]
  · rw [constrain_weights_twice, h1]
    simp only [Except.bind]
    have h2 := constrain_weights_eq_rescaled panelC
      (rescaled_weights w011 (target_quantities_of panelC w011 cvC) max50
        (target_quantities_of panelC w011 cvC) (_get_trades w011))
      (some max50) none cvC rfl rfl hcv
    simp only [Option.getD_some, Option.getD_none] at h2
    rw [h2]
    simp only [entryOf]
    have htq2b : target_quantities_of panelC
        (rescaled_weights w011 (target_quantities_of panelC w011 cvC) max50
          (target_quantities_of panelC w011 cvC) (_get_trades w011)) cvC 2 0 =
          some 100 := by
      rw [target_quantities_entry]
      norm_num [hw1_2, hgn, hcvE, shiftM, mulOpt, divOpt, opt2, absOpt]
    have htr2b : _get_trades
        (rescaled_weights w011 (target_quantities_of panelC w011 cvC) max50
          (target_quantities_of panelC w011 cvC) (_get_trades w011)) 2 0 =
          some (1 / 2) := by
      rw [trades_entry]
      norm_num [hw1_2, hw1_1, shiftM, subOpt, opt2]
    have hrc2b : reduceCond (target_quantities_of panelC
        (rescaled_weights w011 (target_quantities_of panelC w011 cvC) max50
          (target_quantities_of panelC w011 cvC) (_get_trades w011)) cvC) max50
        (_get_trades (rescaled_weights w011 (target_quantities_of panelC w011 cvC)
          max50 (target_quantities_of panelC w011 cvC) (_get_trades w011))) 2 0 =
          true := by
      norm_num [reduceCond, htq2b, htr2b, max50, gtOpt, ltOpt, absOpt]
    have hic2b : increaseCond (target_quantities_of panelC
        (rescaled_weights w011 (target_quantities_of panelC w011 cvC) max50
          (target_quantities_of panelC w011 cvC) (_get_trades w011)) cvC)
        (target_quantities_of panelC
          (rescaled_weights w011 (target_quantities_of panelC w011 cvC) max50
            (target_quantities_of panelC w011 cvC) (_get_trades w011)) cvC)
        (_get_trades (rescaled_weights w011 (target_quantities_of panelC w011 cvC)
          max50 (target_quantities_of panelC w011 cvC) (_get_trades w011))) 2 0 =
          false := by
      norm_num [increaseCond, htq2b, ltOpt]
    rw [rescaled_weights_entry_reduce _ _ _ _ _ 2 0 hrc2b hic2b]
    norm_num [hw1_2, max50, mulOpt, divOpt, opt2, replaceZeroOne, htq2b]

/-- Witness for C3 (amended) at the all-zero weight matrix (no cell is
entering a trade, so no rescale condition fires). -/
theorem constrain_weights_noop_cases_witness :
    (panelC.fields.contains "Nlv" = true ∧
     _get_contract_values panelC = .ok cvC ∧
     (∀ t i,
       reduceCond (target_quantities_of panelC zeroM cvC)
         ((some max50).getD (target_quantities_of panelC zeroM cvC))
         (_get_trades zeroM) t i = false ∧
       increaseCond (target_quantities_of panelC zeroM cvC)
         ((none : Option Mat).getD (target_quantities_of panelC zeroM cvC))
         (_get_trades zeroM) t i = false)) ∧
    ((∀ w2 : Mat, _constrain_weights none none w2 panelC = .ok w2) ∧
     _constrain_weights (some max50) none zeroM panelC = .ok zeroM ∧
     constrain_weights_twice (some max50) none zeroM panelC = .ok zeroM) := by
  have htr : ∀ t i : Nat, gtOpt (absOpt (_get_trades zeroM t i)) (some 0) = false := by
    intro t i
    rcases Nat.eq_zero_or_pos t with h0 | h0
    · subst h0
      rfl
    · have hne : t ≠ 0 := Nat.pos_iff_ne_zero.mp h0
      rw [trades_entry]
      simp [zeroM, shiftM, hne, subOpt, opt2, absOpt, gtOpt, ltOpt]
  have hquiet : ∀ t i,
      reduceCond (target_quantities_of panelC zeroM cvC)
        ((some max50).getD (target_quantities_of panelC zeroM cvC))
        (_get_trades zeroM) t i = false ∧
      increaseCond (target_quantities_of panelC zeroM cvC)
        ((none : Option Mat).getD (target_quantities_of panelC zeroM cvC))
        (_get_trades zeroM) t i = false := by
    intro t i
    constructor
    · simp only [reduceCond, htr t i, Bool.and_false]
    · simp only [increaseCond, htr t i, Bool.and_false]
  exact ⟨⟨rfl, rfl, hquiet⟩,
    constrain_weights_noop_cases panelC zeroM (some max50) none cvC rfl rfl hquiet⟩

/-- C4 (amended): in `_constrain_weights` every division by the target
quantity is guarded — the divisor `target_quantities.replace(0, 1)` is
never an exact zero, so no division by zero occurs — and every cell whose
original weight is zero (the only way a zero target quantity arises from a
nonzero NLV) still carries weight zero after constraining, because the
rescale multiplies the original, zero, weight.  When the target quantity is
zero because the NLV is zero while the weight is not, the rescaled weight
is weight × bound, which need not be zero: see the counterexample. -/
theorem constrain_weights_division_guard
    (p : Panel) (w : Mat) (maxA minA : Option Mat) (r : Mat) (t i : Nat)
    (hok : _constrain_weights maxA minA w p = .ok r)
    (hzero : w t i = some 0) :
    (∀ tq : Mat, ∀ s j, replaceZeroOne tq s j ≠ some 0) ∧ r t i = some 0 := by
  constructor
  · intro tq s j
    rcases htq : tq s j with _ | x
    · simp [replaceZeroOne, htq]
    · simp [replaceZeroOne, htq, replaceZeroOne_image_ne_zero x]
  · by_cases hnone : (maxA.isNone && minA.isNone) = true
    · have h12 : maxA.isNone = true ∧ minA.isNone = true := by
        simpa [Bool.and_eq_true] using hnone
      rw [Option.isNone_iff_eq_none.mp h12.1, Option.isNone_iff_eq_none.mp h12.2,
        _constrain_weights] at hok
      simp only [Option.isNone_none, Bool.and_self, if_true, Except.ok.injEq] at hok
      rw [← hok, hzero]
    · by_cases hnlv : p.fields.contains "Nlv" = true
      · rcases hcv : _get_contract_values p with e | cv
        · rw [_constrain_weights, if_neg (by simp [Bool.eq_false_iff.mpr hnone]),
            if_neg (by rw [hnlv]; decide), hcv] at hok
          exact absurd hok (by simp [Except.bind])
        · rw [constrain_weights_eq_rescaled p w maxA minA cv
            (Bool.eq_false_iff.mpr hnone) hnlv hcv, Except.ok.injEq] at hok
          rw [← hok]
          exact rescaled_weights_zero_entry _ _ _ _ _ t i hzero
      · rw [_constrain_weights, if_neg (by simp [Bool.eq_false_iff.mpr hnone]),
          if_pos (by rw [Bool.eq_false_iff.mpr hnlv]; decide)] at hok
        exact absurd hok (by simp)

/-- C4 counterexample: single instrument, Close = 1, NLV = 0, min allowed
quantity 5, weights 0, 0.7.  At date 1 the target quantity is exactly zero
(zero NLV) yet the cell is rescaled (it enters a trade and 0 < 5), and the
resulting scaled weight is 0.7 × 5 = 3.5, not zero. -/
theorem constrain_weights_zero_target_counterexample :
    _get_contract_values panelZ = .ok cvZ ∧
    target_quantities_of panelZ w07 cvZ 1 0 = some 0 ∧
    increaseCond (target_quantities_of panelZ w07 cvZ) min5 (_get_trades w07)
      1 0 = true ∧
    entryOf (_constrain_weights none (some min5) w07 panelZ) 1 0 =
      some (some (7 / 2)) := by
  have hgn : panelZ.get "Nlv" = (fun _ _ => some 0 : Mat) := rfl
  have hgc : panelZ.get "Close" = (fun _ _ => some 1 : Mat) := rfl
  have hgm : panelZ.get "PriceMagnifier" = noneM := rfl
  have hgu : panelZ.get "Multiplier" = noneM := rfl
  have hcvE : ∀ t i, cvZ t i = some 1 := by
    intro t i
    norm_num [cvZ, hgc, hgm, hgu, mulM, divM, mulOpt, divOpt, opt2, fillnaM, noneM]
  have hcv : _get_contract_values panelZ = .ok cvZ := rfl
  have htq1 : target_quantities_of panelZ w07 cvZ 1 0 = some 0 := by
    rw [target_quantities_entry]
    norm_num [w07, hgn, hcvE, shiftM, mulOpt, divOpt, opt2, absOpt]
  have htr1 : _get_trades w07 1 0 = some (7 / 10) := by
    rw [trades_entry]
    norm_num [w07, shiftM, subOpt, opt2]
  have hrc1 : reduceCond (target_quantities_of panelZ w07 cvZ)
      (target_quantities_of panelZ w07 cvZ) (_get_trades w07) 1 0 = false := by
    norm_num [reduceCond, htq1, gtOpt, ltOpt]
  have hic1 : increaseCond (target_quantities_of panelZ w07 cvZ) min5
      (_get_trades w07) 1 0 = true := by
    norm_num [increaseCond, htq1, htr1, min5, ltOpt, gtOpt, absOpt]
  refine ⟨hcv, htq1, hic1, ?_⟩
  have h3 := constrain_weights_eq_rescaled panelZ w07 none (some min5) cvZ rfl rfl hcv
  simp only [Option.getD_some, Option.getD_none] at h3
  rw [h3]
  simp only [entryOf]
  rw [rescaled_weights_entry_increase _ _ _ _ _ 1 0 hrc1 hic1]
  norm_num [w07, min5, mulOpt, divOpt, opt2, replaceZeroOne, htq1]

/-- Witness for C4 (amended) with no bounds configured and a zero weight
cell. -/
theorem constrain_weights_division_guard_witness :
    (_constrain_weights none none w011 panelC = .ok w011 ∧
     w011 0 0 = some 0) ∧
    ((∀ tq : Mat, ∀ s j, replaceZeroOne tq s j ≠ some 0) ∧
     w011 0 0 = some 0) := by
  have h := constrain_weights_division_guard panelC w011 none none w011 0 0 rfl rfl
  exact ⟨⟨rfl, rfl⟩, h⟩

/-- C5: with a dict-keyed commission configuration (a nonempty dict — the
empty dict is falsy and counts as "no commission configured"), whenever
some (sectype, exchange, currency) combination present among the
instruments at the most recent date has no configured class,
`_get_commissions` raises an error naming exactly the missing combinations;
whenever every such combination is covered it returns a commission matrix
without error; and with no commission class configured the commission
matrix is zero everywhere.  (Both fallible conjuncts presuppose that the
Panel carries a usable price field, which `_get_commissions` needs before
it reaches the coverage check.) -/
theorem get_commissions_coverage
    (classes : List (SecGroup × CommissionModel)) (positions : Mat)
    (p : Panel) (cv : Mat)
    (hcv : _get_contract_values p = .ok cv)
    (hne : classes ≠ []) :
    ((requiredSecGroups p).filter
        (fun g => !((classes.map Prod.fst).contains g)) ≠ [] →
      ∃ L, _get_commissions (.byGroup classes) positions p =
          .error (.missingCommissionGroups L) ∧
        ∀ g : SecGroup, g ∈ L ↔
          (g ∈ requiredSecGroups p ∧ g ∉ classes.map Prod.fst)) ∧
    ((∀ g ∈ requiredSecGroups p, g ∈ classes.map Prod.fst) →
      ∃ m, _get_commissions (.byGroup classes) positions p = .ok m) ∧
    (_get_commissions .noCommission positions p = .ok zeroM ∧
      ∀ t i : Nat, zeroM t i = some 0) := by
  obtain ⟨c, cs, rfl⟩ : ∃ c cs, classes = c :: cs := by
    cases classes with
    | nil => exact absurd rfl hne
    | cons c cs => exact ⟨c, cs, rfl⟩
  have hunfold : _get_commissions (.byGroup (c :: cs)) positions p =
      (if ((requiredSecGroups p).filter
          (fun g => !(((c :: cs).map Prod.fst).contains g))).isEmpty then
        .ok ((requiredSecGroups p).foldl (fun acc g =>
          whereM (inSecGroup p g)
            ((((c :: cs).lookup g).getD (fun _ _ _ => zeroM)) cv
              (_get_trades positions) (nlvsOf p)) acc) noneM)
      else
        .error (.missingCommissionGroups ((requiredSecGroups p).filter
          (fun g => !(((c :: cs).map Prod.fst).contains g))))) := by
    have hfalsy : (CommissionConfig.byGroup (c :: cs)).isFalsy = false := rfl
    rw [_get_commissions, if_neg (by rw [hfalsy]; decide), hcv]
    rfl
  refine ⟨?_, ?_, rfl, fun t i => rfl⟩
  · intro hmiss
    have hne2 : ((requiredSecGroups p).filter
        (fun g => !(((c :: cs).map Prod.fst).contains g))).isEmpty = false :=
      Bool.eq_false_iff.mpr (fun h => hmiss (List.isEmpty_iff.mp h))
    refine ⟨_, by rw [hunfold, hne2]; rfl, ?_⟩
    intro g
    simp [List.mem_filter]
  · intro hcov
    have hempty : (requiredSecGroups p).filter
        (fun g => !(((c :: cs).map Prod.fst).contains g)) = [] := by
      refine List.filter_eq_nil_iff.mpr (fun g hg => ?_)
      have hc : ((c :: cs).map Prod.fst).contains g = true := by
        simpa using hcov g hg
      intro hcontra
      have hcontra2 : (!((c :: cs).map Prod.fst).contains g) = true := hcontra
      rw [hc] at hcontra2
      exact absurd hcontra2 (by decide)
    rw [hunfold, hempty]
    exact ⟨_, rfl⟩

/-- Witness for C5 on a one-instrument STK/NYSE/USD Panel with a
configuration keyed only by FUT/GLOBEX/USD: the coverage check fails,
naming the STK/NYSE/USD combination. -/
theorem get_commissions_coverage_witness :
    (_get_contract_values panelS = .ok cvS ∧ classesMiss ≠ [] ∧
     (requiredSecGroups panelS).filter
       (fun g => !((classesMiss.map Prod.fst).contains g)) ≠ []) ∧
    (∃ L, _get_commissions (.byGroup classesMiss) zeroM panelS =
        .error (.missingCommissionGroups L) ∧
      ∀ g : SecGroup, g ∈ L ↔
        (g ∈ requiredSecGroups panelS ∧ g ∉ classesMiss.map Prod.fst)) := by
  have h := get_commissions_coverage classesMiss zeroM panelS cvS rfl
    (by simp [classesMiss])
  exact ⟨⟨rfl, by simp [classesMiss], by decide⟩, h.1 (by decide)⟩

/-- C6: in `trade`, when the external position source returns no
currently-held positions the net quantity matrix is exactly the target
quantity matrix; and whenever every net quantity over the I × A cells is
zero — in particular whenever the target quantity equals the held quantity
in every cell — `trade` returns nothing, so no order stubs are created. -/
theorem trade_reconciliation (code : String) (I A : Nat) (target : QMat)
    (ps : List HeldPosition) (maxRow minRow : Option (Nat → PVal)) :
    (∀ i a, net_quantities_of target [] i a = target i a) ∧
    ((∀ i, i < I → ∀ a, a < A → net_quantities_of target ps i a = 0) →
      trade_after_targets code I A target ps maxRow minRow = none) ∧
    ((∀ i, i < I → ∀ a, a < A → target i a = heldQuantity ps i a) →
      trade_after_targets code I A target ps maxRow minRow = none) := by
  have hzero : (∀ i, i < I → ∀ a, a < A →
      net_quantities_of target ps i a = 0) →
      trade_after_targets code I A target ps maxRow minRow = none := by
    intro hz
    have hall : allZero I A (net_quantities_of target ps) = true :=
      decide_eq_true (fun i hi a ha => hz i hi a ha)
    simp [trade_after_targets, hall]
  refine ⟨fun i a => rfl, hzero, ?_⟩
  intro heq
  refine hzero (fun i hi a ha => ?_)
  by_cases hps : ps.isEmpty = true
  · have hnil : ps = [] := List.isEmpty_iff.mp hps
    subst hnil
    have hn : net_quantities_of target [] i a = target i a := rfl
    rw [hn, heq i hi a ha]
    rfl
  · have hne : ps.isEmpty = false := Bool.eq_false_iff.mpr hps
    have hn : net_quantities_of target ps i a =
        target i a - heldQuantity ps i a := by
      simp [net_quantities_of, hne]
    rw [hn, heq i hi a ha, sub_self]

/-- Witness for C6: one instrument, one account, target quantity 5 with a
held position of 5 — no orders are produced. -/
theorem trade_reconciliation_witness :
    ((∀ i, i < 1 → ∀ a, a < 1 →
       (fun _ _ => (5 : ℚ) : QMat) i a = heldQuantity [(0, 0, (5 : ℚ))] i a) ∧
     (∀ i a, net_quantities_of (fun _ _ => (5 : ℚ) : QMat) [] i a = 5)) ∧
    trade_after_targets "my-strategy" 1 1 (fun _ _ => (5 : ℚ))
      [(0, 0, (5 : ℚ))] none none = none := by
  have h := trade_reconciliation "my-strategy" 1 1 (fun _ _ => (5 : ℚ))
    [(0, 0, (5 : ℚ))] none none
  exact ⟨⟨by decide, fun i a => rfl⟩, h.2.2 (by decide)⟩

/-- C7: the net returns matrix of the backtest path is the gross returns
matrix minus the commission matrix minus the slippage matrix, cell by cell
exactly. -/
theorem returns_decomposition (cfg : CommissionConfig)
    (classes : List SlippageModel) (bps : ℚ)
    (fixedSlippage : ℚ → SlippageModel) (positions : Mat) (p : Panel) (c : Mat)
    (hcomm : _get_commissions cfg positions p = .ok c) :
    ∃ r, _get_returns cfg classes bps fixedSlippage positions p = .ok r ∧
      ∀ t i, r t i =
        subOpt (subOpt (simulate_gross_returns positions p t i) (c t i))
          (_get_slippage classes bps fixedSlippage positions p t i) := by
  refine ⟨subM (subM (simulate_gross_returns positions p) c)
    (_get_slippage classes bps fixedSlippage positions p), ?_, fun t i => rfl⟩
  simp only [_get_returns]
  rw [hcomm]
  rfl

/-- Witness for C7 with no commission configured. -/
theorem returns_decomposition_witness :
    _get_commissions .noCommission zeroM panelC = .ok zeroM ∧
    (∃ r, _get_returns .noCommission [] 0 fixedSlippageStandIn zeroM panelC =
        .ok r ∧
      ∀ t i, r t i =
        subOpt (subOpt (simulate_gross_returns zeroM panelC t i) (zeroM t i))
          (_get_slippage [] 0 fixedSlippageStandIn zeroM panelC t i)) := by
  exact ⟨rfl, returns_decomposition .noCommission [] 0 fixedSlippageStandIn
    zeroM panelC zeroM rfl⟩

/-- Helper: entrywise value of the slippage accumulation fold. -/
theorem foldl_addM_entry (f : SlippageModel → Mat) (l : List SlippageModel)
    (init : Mat) (t i : Nat) :
    (l.foldl (fun acc cls => addM acc (f cls)) init) t i =
      (l.map (fun cls => f cls t i)).foldl addOpt (init t i) := by
  induction l generalizing init with
  | nil => rfl
  | cons hd tl ih =>
      simp only [List.foldl_cons, List.map_cons]
      rw [ih (addM init (f hd))]
      rfl

/-- C8: with a zero basis-point rate the slippage matrix is, cell by cell,
the sum of the outputs of every configured slippage model; a nonzero
basis-point rate replaces (does not add to) the per-model sum with the
fixed-rate slippage alone; and with no models and no basis-point rate the
slippage is zero everywhere. -/
theorem slippage_accumulation (classes : List SlippageModel) (bps : ℚ)
    (fixedSlippage : ℚ → SlippageModel) (positions : Mat) (p : Panel)
    (t i : Nat) :
    (bps = 0 → _get_slippage classes bps fixedSlippage positions p t i =
      (classes.map (fun cls =>
        cls (_get_trades positions) positions p t i)).foldl addOpt (some 0)) ∧
    (bps ≠ 0 → _get_slippage classes bps fixedSlippage positions p =
      fixedSlippage (bps / 10000) (_get_trades positions) positions p) ∧
    (classes = [] → bps = 0 →
      _get_slippage classes bps fixedSlippage positions p t i = some 0) := by
  refine ⟨?_, ?_, ?_⟩
  · intro hb
    subst hb
    simp only [_get_slippage, ne_eq, not_true_eq_false, if_false]
    exact foldl_addM_entry (fun cls => cls (_get_trades positions) positions p)
      classes zeroM t i
  · intro hb
    simp only [_get_slippage]
    rw [if_pos hb]
  · intro hc hb
    subst hc
    subst hb
    simp [_get_slippage]
    rfl

/-- Witness for C8: one unit-cost slippage model with no basis points sums
to one; an empty model list with 5 bps yields the fixed-rate slippage; no
models and no bps yield zero. -/
theorem slippage_accumulation_witness :
    ((0 : ℚ) = 0 ∧ (5 : ℚ) ≠ 0 ∧ ([] : List SlippageModel) = []) ∧
    _get_slippage [unitSlippageModel] 0 fixedSlippageStandIn zeroM panelC 0 0 =
      some 1 ∧
    _get_slippage [] 5 fixedSlippageStandIn zeroM panelC =
      fixedSlippageStandIn (5 / 10000) (_get_trades zeroM) zeroM panelC ∧
    _get_slippage [] 0 fixedSlippageStandIn zeroM panelC 0 0 = some 0 := by
  have h1 := (slippage_accumulation [unitSlippageModel] 0 fixedSlippageStandIn
    zeroM panelC 0 0).1 rfl
  have h2 := (slippage_accumulation ([] : List SlippageModel) 5
    fixedSlippageStandIn zeroM panelC 0 0).2.1 (by norm_num)
  have h3 := (slippage_accumulation ([] : List SlippageModel) 0
    fixedSlippageStandIn zeroM panelC 0 0).2.2 rfl rfl
  refine ⟨⟨rfl, by norm_num, rfl⟩, ?_, h2, h3⟩
  rw [h1]
  norm_num [List.map_cons, List.map_nil, List.foldl_cons, List.foldl_nil,
    unitSlippageModel, addOpt, opt2]

/-- C9: in `trade`, for every (instrument, account) pair whose account base
currency equals the instrument's resolved quote currency, the exchange rate
is forced to exactly 1 regardless of what the external rate table returns
for that pair, and the target-quantity computation at that cell therefore
uses rate 1. -/
theorem exchange_rate_forced_to_one
    (baseCurrency quoteCurrency : Nat → String)
    (rateTable : String → String → PVal) (weights nlvs cv : Mat) (i a : Nat)
    (h : baseCurrency a = quoteCurrency i) :
    resolveExchangeRates baseCurrency quoteCurrency rateTable i a = some 1 ∧
    _get_target_quantities weights nlvs
        (resolveExchangeRates baseCurrency quoteCurrency rateTable) cv i a =
      _get_target_quantities weights nlvs (fun _ _ => some 1) cv i a := by
  have h1 : resolveExchangeRates baseCurrency quoteCurrency rateTable i a =
      some 1 := by
    simp [resolveExchangeRates, h]
  exact ⟨h1, by simp only [_get_target_quantities, h1]⟩

/-- Witness for C9: a rate table wrongly reporting USD/USD = 2 is
overridden by the forced rate of 1. -/
theorem exchange_rate_forced_to_one_witness :
    ((fun _ : Nat => "USD") 0 = (fun _ : Nat => "USD") 0) ∧
    resolveExchangeRates (fun _ => "USD") (fun _ => "USD")
      (fun _ _ => some 2) 0 0 = some 1 ∧
    _get_target_quantities (fun _ _ => some 1 : Mat) (fun _ _ => some 1 : Mat)
        (resolveExchangeRates (fun _ => "USD") (fun _ => "USD")
          (fun _ _ => some 2)) (fun _ _ => some 1 : Mat) 0 0 =
      _get_target_quantities (fun _ _ => some 1 : Mat) (fun _ _ => some 1 : Mat)
        (fun _ _ => some 1) (fun _ _ => some 1 : Mat) 0 0 := by
  have h := exchange_rate_forced_to_one (fun _ => "USD") (fun _ => "USD")
    (fun _ _ => some 2) (fun _ _ => some 1 : Mat) (fun _ _ => some 1 : Mat)
    (fun _ _ => some 1 : Mat) 0 0 rfl
  exact ⟨rfl, h.1, h.2⟩

/-- C10: `backtest` replaces any falsy allocation (`None` or 0) by the
default 1.0 before scaling the weights, so calling it with allocation 0 or
`None` scales the weights by 1 and produces the same results as the default
allocation argument 1.0. -/
theorem backtest_zero_allocation_defaults
    (weights : Mat) (maxAllowed minAllowed : Option Mat) (p : Panel) :
    effectiveAllocation (some 0) = 1 ∧
    effectiveAllocation none = 1 ∧
    backtest_scaled_weights weights (some 0) =
      backtest_scaled_weights weights (some 1) ∧
    backtest_scaled_weights weights none =
      backtest_scaled_weights weights (some 1) ∧
    backtest_positions maxAllowed minAllowed weights p (some 0) =
      backtest_positions maxAllowed minAllowed weights p (some 1) ∧
    backtest_positions maxAllowed minAllowed weights p none =
      backtest_positions maxAllowed minAllowed weights p (some 1) := by
  have he0 : effectiveAllocation (some 0) = 1 := by simp [effectiveAllocation]
  have heN : effectiveAllocation none = 1 := rfl
  have he1 : effectiveAllocation (some 1) = 1 := by
    simp [effectiveAllocation]
  have hw0 : backtest_scaled_weights weights (some 0) =
      backtest_scaled_weights weights (some 1) := by
    funext t i
    simp only [backtest_scaled_weights, he0, he1]
  have hwN : backtest_scaled_weights weights none =
      backtest_scaled_weights weights (some 1) := by
    funext t i
    simp only [backtest_scaled_weights, heN, he1]
  refine ⟨he0, heN, hw0, hwN, ?_, ?_⟩
  · simp only [backtest_positions, hw0]
  · simp only [backtest_positions, hwN]
